import Mathlib

/-!
Shallow embedding of src/screencastkeys/ops.py (the Screencast-Keys addon):
event classification, modifier tracking, event and operator history, origin
resolution, draw-area calculation, redraw-region finding, and the modal
operator lifecycle.  Host objects (windows, areas, regions, spaces) are
modelled by structures carrying exactly the fields the code reads; opaque
pointers (as_pointer results) are modelled as natural numbers; Python floats
(timestamps, font metrics) are modelled as rationals; code that can raise a
Python exception is modelled in Except String.
-/

namespace ScreencastKeys

/-- A representative closed subset of the host event-type enumeration
(EventType in ops.py, built from bpy.types.Event type enum items),
containing every member the code names plus ordinary keys. -/
inductive EventType where
  | NONE
  | LEFTMOUSE
  | MIDDLEMOUSE
  | RIGHTMOUSE
  | BUTTON4MOUSE
  | BUTTON5MOUSE
  | BUTTON6MOUSE
  | BUTTON7MOUSE
  | TRACKPADPAN
  | TRACKPADZOOM
  | MOUSEROTATE
  | WHEELUPMOUSE
  | WHEELDOWNMOUSE
  | WHEELINMOUSE
  | WHEELOUTMOUSE
  | MOUSEMOVE
  | INBETWEEN_MOUSEMOVE
  | LEFT_SHIFT
  | RIGHT_SHIFT
  | LEFT_CTRL
  | RIGHT_CTRL
  | LEFT_ALT
  | RIGHT_ALT
  | OSKEY
  | WINDOW_DEACTIVATE
  | TEXTINPUT
  | TIMER
  | EVT_TWEAK_L
  | A
  | B
  | SPACE
  | RET
  | ESC
  deriving DecidableEq, Repr

/-- The enum identifier of an event type (the .name attribute of a Python
IntEnum member). -/
def EventType.ident : EventType → String
  | .NONE => "NONE"
  | .LEFTMOUSE => "LEFTMOUSE"
  | .MIDDLEMOUSE => "MIDDLEMOUSE"
  | .RIGHTMOUSE => "RIGHTMOUSE"
  | .BUTTON4MOUSE => "BUTTON4MOUSE"
  | .BUTTON5MOUSE => "BUTTON5MOUSE"
  | .BUTTON6MOUSE => "BUTTON6MOUSE"
  | .BUTTON7MOUSE => "BUTTON7MOUSE"
  | .TRACKPADPAN => "TRACKPADPAN"
  | .TRACKPADZOOM => "TRACKPADZOOM"
  | .MOUSEROTATE => "MOUSEROTATE"
  | .WHEELUPMOUSE => "WHEELUPMOUSE"
  | .WHEELDOWNMOUSE => "WHEELDOWNMOUSE"
  | .WHEELINMOUSE => "WHEELINMOUSE"
  | .WHEELOUTMOUSE => "WHEELOUTMOUSE"
  | .MOUSEMOVE => "MOUSEMOVE"
  | .INBETWEEN_MOUSEMOVE => "INBETWEEN_MOUSEMOVE"
  | .LEFT_SHIFT => "LEFT_SHIFT"
  | .RIGHT_SHIFT => "RIGHT_SHIFT"
  | .LEFT_CTRL => "LEFT_CTRL"
  | .RIGHT_CTRL => "RIGHT_CTRL"
  | .LEFT_ALT => "LEFT_ALT"
  | .RIGHT_ALT => "RIGHT_ALT"
  | .OSKEY => "OSKEY"
  | .WINDOW_DEACTIVATE => "WINDOW_DEACTIVATE"
  | .TEXTINPUT => "TEXTINPUT"
  | .TIMER => "TIMER"
  | .EVT_TWEAK_L => "EVT_TWEAK_L"
  | .A => "A"
  | .B => "B"
  | .SPACE => "SPACE"
  | .RET => "RET"
  | .ESC => "ESC"

/-- The UI display name of an event type: models the lookup
EventType.names[member.name] in ops.py (names is the identifier-to-UI-name
dictionary built from the enum items). -/
def EventType.names : EventType → String
  | .NONE => ""
  | .LEFTMOUSE => "Left Mouse"
  | .MIDDLEMOUSE => "Middle Mouse"
  | .RIGHTMOUSE => "Right Mouse"
  | .BUTTON4MOUSE => "Button4 Mouse"
  | .BUTTON5MOUSE => "Button5 Mouse"
  | .BUTTON6MOUSE => "Button6 Mouse"
  | .BUTTON7MOUSE => "Button7 Mouse"
  | .TRACKPADPAN => "Mouse/Trackpad Pan"
  | .TRACKPADZOOM => "Mouse/Trackpad Zoom"
  | .MOUSEROTATE => "Mouse/Trackpad Rotate"
  | .WHEELUPMOUSE => "Wheel Up"
  | .WHEELDOWNMOUSE => "Wheel Down"
  | .WHEELINMOUSE => "Wheel In"
  | .WHEELOUTMOUSE => "Wheel Out"
  | .MOUSEMOVE => "Mouse Move"
  | .INBETWEEN_MOUSEMOVE => "In-between Move"
  | .LEFT_SHIFT => "Left Shift"
  | .RIGHT_SHIFT => "Right Shift"
  | .LEFT_CTRL => "Left Ctrl"
  | .RIGHT_CTRL => "Right Ctrl"
  | .LEFT_ALT => "Left Alt"
  | .RIGHT_ALT => "Right Alt"
  | .OSKEY => "OS Key"
  | .WINDOW_DEACTIVATE => "Window Deactivate"
  | .TEXTINPUT => "Text Input"
  | .TIMER => "Timer"
  | .EVT_TWEAK_L => "Tweak Left"
  | .A => "A"
  | .B => "B"
  | .SPACE => "Spacebar"
  | .RET => "Return"
  | .ESC => "Esc"

/-- All members of the modelled enumeration. -/
def EventType.all : List EventType :=
  [.NONE, .LEFTMOUSE, .MIDDLEMOUSE, .RIGHTMOUSE, .BUTTON4MOUSE, .BUTTON5MOUSE,
   .BUTTON6MOUSE, .BUTTON7MOUSE, .TRACKPADPAN, .TRACKPADZOOM, .MOUSEROTATE,
   .WHEELUPMOUSE, .WHEELDOWNMOUSE, .WHEELINMOUSE, .WHEELOUTMOUSE, .MOUSEMOVE,
   .INBETWEEN_MOUSEMOVE, .LEFT_SHIFT, .RIGHT_SHIFT, .LEFT_CTRL, .RIGHT_CTRL,
   .LEFT_ALT, .RIGHT_ALT, .OSKEY, .WINDOW_DEACTIVATE, .TEXTINPUT, .TIMER,
   .EVT_TWEAK_L, .A, .B, .SPACE, .RET, .ESC]

/-- The lookup EventType[s] on a raw event-type string, as an Option: some
member whose identifier equals the string, none when the string is not a
member (in Python this raises KeyError). -/
def EventType.ofString (s : String) : Option EventType :=
  EventType.all.find? (fun t => EventType.ident t = s)

/-- ops.py ScreencastKeysStatus.MODIFIER_EVENT_TYPES (a list, order
significant: it is the sort priority). -/
def MODIFIER_EVENT_TYPES : List EventType :=
  [.LEFT_SHIFT, .RIGHT_SHIFT, .LEFT_CTRL, .RIGHT_CTRL, .LEFT_ALT, .RIGHT_ALT,
   .OSKEY]

/-- ops.py ScreencastKeysStatus.MOUSE_EVENT_TYPES (a set; modelled as a list
used only for membership). -/
def MOUSE_EVENT_TYPES : List EventType :=
  [.LEFTMOUSE, .MIDDLEMOUSE, .RIGHTMOUSE, .BUTTON4MOUSE, .BUTTON5MOUSE,
   .BUTTON6MOUSE, .BUTTON7MOUSE, .TRACKPADPAN, .TRACKPADZOOM, .MOUSEROTATE,
   .WHEELUPMOUSE, .WHEELDOWNMOUSE, .WHEELINMOUSE, .WHEELOUTMOUSE]

/-- Index of an element in a list (list.index in Python, total here because
sorted_modifier_keys only calls it under a membership test). -/
def listIndex (l : List EventType) (t : EventType) : Nat :=
  match l with
  | [] => 0
  | a :: rest => if a = t then 0 else listIndex rest t + 1

/-- The key function of sorted_modifier_keys: position in
MODIFIER_EVENT_TYPES, or 100 for anything else. -/
def modifier_sort_key (event_type : EventType) : Nat :=
  if event_type ∈ MODIFIER_EVENT_TYPES then listIndex MODIFIER_EVENT_TYPES event_type
  else 100

/-- Stable insertion into a key-sorted list (an element is placed before the
first element with a key not smaller than its own), matching the stability
guarantee of Python sorted. -/
def insertByKey (k : EventType → Nat) (x : EventType) : List EventType → List EventType
  | [] => [x]
  | y :: ys => if k x ≤ k y then x :: y :: ys else y :: insertByKey k x ys

/-- Stable sort by key, matching Python sorted(modifiers, key=key_fn). -/
def sortedByKey (k : EventType → Nat) : List EventType → List EventType
  | [] => []
  | x :: xs => insertByKey k x (sortedByKey k xs)

/-- Strips the Left/Right qualifier from a display name: models
re.sub applied with pattern (Left |Right ) and empty replacement. -/
def strip_side (name : String) : String :=
  (name.replace "Left " "").replace "Right " ""

/-- The loop body of sorted_modifier_keys: walk the sorted modifiers, assert
each one is a modifier type (AssertionError modelled as Except.error), strip
the side qualifier and keep the first occurrence of each display name. -/
def sorted_modifier_keys_loop : List EventType → List String → Except String (List String)
  | [], names => .ok names
  | m :: rest, names =>
    let name := EventType.names m
    if m ∈ MODIFIER_EVENT_TYPES then
      let name := strip_side name
      if name ∈ names then sorted_modifier_keys_loop rest names
      else sorted_modifier_keys_loop rest (names ++ [name])
    else .error (name ++ " must be modifier types")

/-- ops.py ScreencastKeysStatus.sorted_modifier_keys: sort by the fixed
priority, then per element assert modifier-ness, strip Left/Right and
de-duplicate display names preserving first occurrence. -/
def sorted_modifier_keys (modifiers : List EventType) : Except String (List String) :=
  sorted_modifier_keys_loop (sortedByKey modifier_sort_key modifiers) []

/-- One event-history item: [time, event_type, modifier, repeat] in ops.py. -/
structure EventEntry where
  time : ℚ
  event_type : EventType
  modifiers : List EventType
  repeat_count : Nat
  deriving DecidableEq, Repr

/-- One operator-history item: [time, bl_label, idname_py, addr] in ops.py. -/
structure OpEntry where
  time : ℚ
  bl_label : String
  idname_py : String
  addr : Nat
  deriving DecidableEq, Repr

/-- ops.py ScreencastKeysStatus.removed_old_event_history: keep exactly the
items whose age (current time minus item time) is at most the display
duration preference. -/
def removed_old_event_history (display_time current_time : ℚ)
    (event_history : List EventEntry) : List EventEntry :=
  event_history.filter (fun item => current_time - item.time ≤ display_time)

/-- ops.py ScreencastKeysStatus.removed_old_operator_history: the last 32
entries (Python slice [-32:]). -/
def removed_old_operator_history (operator_history : List OpEntry) : List OpEntry :=
  operator_history.drop (operator_history.length - 32)

/-- Origin mode preference: the EnumProperty with items WINDOW, AREA,
REGION. -/
inductive OriginMode where
  | WINDOW
  | AREA
  | REGION
  deriving DecidableEq, Repr

/-- The addon preferences fields that the embedded code reads. -/
structure Prefs where
  display_time : ℚ
  show_mouse_events : Bool
  show_last_operator : Bool
  origin : OriginMode
  offset : Int × Int
  deriving DecidableEq, Repr

/-- The per-dispatch input event fields the code reads: type, value and
the live modifier flags. -/
structure InputEvent where
  type : EventType
  value : String
  shift : Bool
  ctrl : Bool
  alt : Bool
  oskey : Bool
  deriving DecidableEq, Repr

/-- ops.py update_hold_modifier_keys: rebuild the held-modifier list from the
live flags (always the left variant, plus the OS key), except that a
window-deactivate event empties the list. -/
def update_hold_modifier_keys (event : InputEvent) : List EventType :=
  let mod_keys :=
    (if event.shift then [EventType.LEFT_SHIFT] else []) ++
    (if event.oskey then [EventType.OSKEY] else []) ++
    (if event.alt then [EventType.LEFT_ALT] else []) ++
    (if event.ctrl then [EventType.LEFT_CTRL] else [])
  if event.type = EventType.WINDOW_DEACTIVATE then [] else mod_keys

/-- ops.py is_ignore_event with the prefs argument supplied (as in every call
from modal): synthetic and movement types, mouse events while the
show-mouse-events preference is off, and tweak or timer identifier families
are ignorable. -/
def is_ignore_event (event : InputEvent) (prefs : Prefs) : Bool :=
  if event.type ∈ [EventType.NONE, EventType.MOUSEMOVE,
      EventType.INBETWEEN_MOUSEMOVE, EventType.WINDOW_DEACTIVATE,
      EventType.TEXTINPUT] then true
  else if prefs.show_mouse_events = false ∧ event.type ∈ MOUSE_EVENT_TYPES then true
  else if (EventType.ident event.type).startsWith "EVT_TWEAK" then true
  else if (EventType.ident event.type).startsWith "TIMER" then true
  else false

/-- ops.py is_modifier_event. -/
def is_modifier_event (event : InputEvent) : Bool :=
  decide (event.type ∈ MODIFIER_EVENT_TYPES)

/-- The modifier snapshot modal attaches to a history entry: the held set
recomputed from the event, with the event type itself removed (Python
list.remove removes the first occurrence; with modal precomputing the held
list this is List.erase). -/
def current_modifiers (event : InputEvent) : List EventType :=
  (update_hold_modifier_keys event).erase event.type

/-- The event-history update performed by one modal dispatch (ops.py modal,
the event_history block): when the event is a non-ignorable non-modifier
press, either merge it into the last entry (same type and modifiers, and
arriving strictly within the display duration) or append a fresh entry;
in all cases the history is then pruned. -/
def modal_update_event_history (prefs : Prefs) (current_time : ℚ)
    (event : InputEvent) (event_history : List EventEntry) : List EventEntry :=
  let hist :=
    if is_ignore_event event prefs = false ∧ is_modifier_event event = false ∧
        event.value = "PRESS" then
      match event_history.getLast? with
      | some last =>
        if last.event_type = event.type ∧ last.modifiers = current_modifiers event ∧
            current_time - last.time < prefs.display_time then
          event_history.dropLast ++
            [{ last with time := current_time, repeat_count := last.repeat_count + 1 }]
        else event_history ++ [⟨current_time, event.type, current_modifiers event, 1⟩]
      | none => event_history ++ [⟨current_time, event.type, current_modifiers event, 1⟩]
    else event_history
  removed_old_event_history prefs.display_time current_time hist

/-- The guard at the top of modal (ops.py modal, the empty-string guard and
the EventType lookup): an empty type string is passed through untouched
(.ok none), a recognized string is classified (.ok some), and any other
string raises KeyError (.error). -/
def modal_event_type_of (etype : String) : Except String (Option EventType) :=
  if etype = "" then .ok none
  else
    match EventType.ofString etype with
    | some t => .ok (some t)
    | none => .error ("KeyError: " ++ etype)

/-- A window region: geometry, role kind (type) and opaque pointer. -/
structure Region where
  x : Int
  y : Int
  width : Int
  height : Int
  type : String
  ptr : Nat
  deriving DecidableEq, Repr

/-- A screen area: geometry, kind, its regions, opaque pointer, and the
pointers of its spaces (spaces.active first-class as a separate field). -/
structure Area where
  x : Int
  y : Int
  width : Int
  height : Int
  type : String
  regions : List Region
  ptr : Nat
  active_space_ptr : Nat
  spaces : List Nat
  deriving DecidableEq, Repr

/-- A window: opaque pointer and the areas of its screen. -/
structure Window where
  ptr : Nat
  areas : List Area
  deriving DecidableEq, Repr

/-- An integer rectangle [xmin, ymin, xmax, ymax] as built by
get_window_region_rect and get_region_rect_on_v3d. -/
structure IRect where
  xmin : Int
  ymin : Int
  xmax : Int
  ymax : Int
  deriving DecidableEq, Repr

/-- ops.py get_window_region_rect: the union bounding box of the WINDOW
regions of an area, folded from the initial [99999, 99999, 0, 0]. -/
def get_window_region_rect (area : Area) : IRect :=
  area.regions.foldl
    (fun rect region =>
      if region.type = "WINDOW" then
        ⟨min rect.xmin region.x, min rect.ymin region.y,
         max (region.x + region.width - 1) rect.xmax,
         max (region.y + region.height - 1) rect.ymax⟩
      else rect)
    ⟨99999, 99999, 0, 0⟩

/-- ops.py get_region_rect_on_v3d with the area and region supplied (as in
every call from the embedded code): a non-WINDOW region keeps its raw
rectangle (with exclusive max corner, as in the source); for a WINDOW region
the bounding box of the WINDOW regions is shrunk on the left/right by the
widths of the wide (width greater than 1) TOOLS and UI regions when the
region-overlap preference is on. -/
def get_region_rect_on_v3d (use_region_overlap : Bool) (area : Area)
    (region : Region) : IRect :=
  if region.type ≠ "WINDOW" then
    ⟨region.x, region.y, region.x + region.width, region.y + region.height⟩
  else
    let wide := area.regions.filter (fun ar => ar.width > 1)
    let tools := (wide.filter (fun ar => ar.type = "TOOLS")).getLast?
    let ui := (wide.filter (fun ar => ar.type = "UI")).getLast?
    let wrect := get_window_region_rect area
    let bounds :=
      if use_region_overlap then
        let widths :=
          match tools, ui with
          | some t, some u =>
            let r1 := if u.x < t.x then u else t
            let r2 := if u.x < t.x then t else u
            if r1.x = area.x then
              if r2.x = r1.x + r1.width then (r1.width + r2.width, (0 : Int))
              else (r1.width, r2.width)
            else ((0 : Int), r1.width + r2.width)
          | some t, none =>
            if t.x = area.x then (t.width, (0 : Int)) else ((0 : Int), t.width)
          | none, some u =>
            if u.x = area.x then (u.width, (0 : Int)) else ((0 : Int), u.width)
          | none, none => ((0 : Int), (0 : Int))
        (max wrect.xmin (area.x + widths.1),
         min wrect.xmax (area.x + area.width - widths.2 - 1))
      else (wrect.xmin, wrect.xmax)
    ⟨bounds.1, region.y, bounds.2, region.y + region.height - 1⟩

/-- The draw-target singleton (ops.py ScreencastKeysStatus.origin): pointers
of the picked window, area and space, and the picked region kind.  The
initial placeholder values (empty strings in Python) are out-of-band here;
all claims concern states after the origin has been set. -/
structure Origin where
  window : Nat
  area : Nat
  space : Nat
  region_type : String
  deriving DecidableEq, Repr

/-- ops.py get_origin local is_area_match: the area pointer test, then the
active-space test, then the fall-through membership test in the
historically-observed area-to-spaces map.  In that last branch the source
evaluates area_p.spaces where area_p is the integer returned by
area.as_pointer(), so reaching it raises AttributeError (an int has no
attribute named spaces); the error is modelled as Except.error. -/
def is_area_match (origin : Origin) (area_spaces_keys : List Nat)
    (area : Area) : Except String Bool :=
  if area.ptr = origin.area then .ok true
  else if area.active_space_ptr = origin.space then .ok true
  else if area.ptr ∈ area_spaces_keys then
    .error "AttributeError: int object has no attribute spaces"
  else .ok false

/-- The AREA-mode scan of get_origin: first area for which is_area_match
holds, propagating any exception it raises. -/
def find_match_area (origin : Origin) (area_spaces_keys : List Nat) :
    List Area → Except String (Option Area)
  | [] => .ok none
  | a :: rest => do
    let b ← is_area_match origin area_spaces_keys a
    if b then pure (some a) else find_match_area origin area_spaces_keys rest

/-- The REGION-mode scan of get_origin: among matching areas, the first
region whose kind equals the stored region kind; an area that matches but
has no such region does not stop the scan. -/
def find_match_area_region (origin : Origin) (area_spaces_keys : List Nat) :
    List Area → Except String (Option (Area × Region))
  | [] => .ok none
  | a :: rest => do
    let b ← is_area_match origin area_spaces_keys a
    if b then
      match a.regions.find? (fun r => r.type = origin.region_type) with
      | some r => pure (some (a, r))
      | none => find_match_area_region origin area_spaces_keys rest
    else find_match_area_region origin area_spaces_keys rest

/-- The 5-tuple get_origin returns: (Window, Area, Region, x, y), each of the
first three possibly None. -/
structure OriginTuple where
  window : Option Window
  area : Option Area
  region : Option Region
  x : Int
  y : Int
  deriving DecidableEq, Repr

/-- ops.py ScreencastKeysStatus.get_origin: locate the anchor window by
pointer, then resolve according to the origin-mode preference; any failure
to match yields the all-none tuple, and the AttributeError of is_area_match
propagates. -/
def get_origin (prefs : Prefs) (origin : Origin) (area_spaces_keys : List Nat)
    (use_region_overlap : Bool) (windows : List Window) :
    Except String OriginTuple :=
  let x := prefs.offset.1
  let y := prefs.offset.2
  match windows.find? (fun w => w.ptr = origin.window) with
  | none => .ok ⟨none, none, none, 0, 0⟩
  | some window =>
    match prefs.origin with
    | .WINDOW => .ok ⟨some window, none, none, x, y⟩
    | .AREA => do
      match ← find_match_area origin area_spaces_keys window.areas with
      | some area => pure ⟨some window, some area, none, x + area.x, y + area.y⟩
      | none => pure ⟨none, none, none, 0, 0⟩
    | .REGION => do
      match ← find_match_area_region origin area_spaces_keys window.areas with
      | some (area, region) =>
        if area.type = "VIEW_3D" then
          let rect := get_region_rect_on_v3d use_region_overlap area region
          pure ⟨some window, some area, some region, x + rect.xmin, y + rect.ymin⟩
        else
          pure ⟨some window, some area, some region, x + region.x, y + region.y⟩
      | none => pure ⟨none, none, none, 0, 0⟩

/-- A rational rectangle (min x, min y, max x, max y): the draw-area
rectangle mixes integer anchor coordinates with font-metric floats. -/
structure QRect where
  xmin : ℚ
  ymin : ℚ
  xmax : ℚ
  ymax : ℚ
  deriving DecidableEq, Repr

/-- The attribute dictionary of the ScreencastKeysStatus class: the constants
its class body defines (ops.py lines 244 and 247).  Python resolves an
attribute access cls.NAME through this dictionary; a missing name raises
AttributeError. -/
def screencast_keys_class_attrs : List (String × ℚ) :=
  [("HEIGHT_RATIO_FOR_SEPARATOR", 6/10), ("TIMER_STEP", 1/10)]

/-- Dynamic class-attribute lookup on ScreencastKeysStatus. -/
def class_attr (name : String) : Option ℚ :=
  (screencast_keys_class_attrs.find? (fun kv => kv.1 = name)).map (fun kv => kv.2)

/-- The Python string.printable constant (digits, letters, punctuation and
whitespace), whose measured height sets the line height. -/
def string_printable : String :=
  String.mk
    ("0123456789abcdefghijklmnopqrstuvwxyzABCDEFGHIJKLMNOPQRSTUVWXYZ".data ++
     (([33, 34, 35, 36, 37, 38, 39, 40, 41, 42, 43, 44, 45, 46, 47, 58, 59,
        60, 61, 62, 63, 64, 91, 92, 93, 94, 95, 96, 123, 124, 125, 126] :
        List Nat).map Char.ofNat) ++
     (([32, 9, 10, 13, 11, 12] : List Nat).map Char.ofNat))

/-- A single-quote character as a string (used by the operator label
format). -/
def squote : String := String.singleton (Char.ofNat 39)

/-- ops.py ScreencastKeysStatus.calc_draw_area_rect.  Parameters stand for
the host collaborators the method reads: dim is blf.dimensions after blf.size
(text measurement), pgettext the translation lookup, current_time the clock.
The accesses the source writes as cls.SEPARATOR_HEIGHT are dynamic attribute
lookups through class_attr; the class body defines no such attribute
(it defines HEIGHT_RATIO_FOR_SEPARATOR), so those sites raise
AttributeError, modelled as Except.error. -/
def calc_draw_area_rect (prefs : Prefs) (origin : Origin)
    (area_spaces_keys : List Nat) (use_region_overlap : Bool)
    (windows : List Window) (dim : String → ℚ × ℚ) (pgettext : String → String)
    (hold_modifier_keys : List EventType) (event_history : List EventEntry)
    (operator_history : List OpEntry) (current_time : ℚ) :
    Except String (Option QRect) := do
  let sh := (dim string_printable).2
  let ot ← get_origin prefs origin area_spaces_keys use_region_overlap windows
  match ot.window with
  | none => pure none
  | some _ =>
    let draw_area_width : ℚ := 0
    let draw_area_height : ℚ := 0
    let (draw_area_width, draw_area_height) ←
      if prefs.show_last_operator then do
        let op_hist := removed_old_operator_history operator_history
        let draw_area_width :=
          match op_hist.getLast? with
          | some op =>
            let text := pgettext op.bl_label ++ " (" ++ squote ++ op.idname_py ++
              squote ++ ")"
            max draw_area_width (dim text).1
          | none => draw_area_width
        match class_attr "SEPARATOR_HEIGHT" with
        | some sep => pure (draw_area_width, draw_area_height + sh + sh * sep)
        | none => Except.error "AttributeError: SEPARATOR_HEIGHT"
      else pure (draw_area_width, draw_area_height)
    let (draw_area_width, draw_area_height) ←
      if hold_modifier_keys ≠ [] then do
        let mod_names ← sorted_modifier_keys hold_modifier_keys
        let text := String.intercalate " + " mod_names
        pure (max draw_area_width (dim text).1, draw_area_height + sh)
      else pure (draw_area_width, draw_area_height)
    let event_history_pruned :=
      removed_old_event_history prefs.display_time current_time event_history
    let (draw_area_width, draw_area_height) ←
      if hold_modifier_keys ≠ [] ∨ event_history_pruned ≠ [] then
        match class_attr "SEPARATOR_HEIGHT" with
        | some sep =>
          pure (max draw_area_width (dim "Left Mouse").1,
            draw_area_height + sh * sep)
        | none => Except.error "AttributeError: SEPARATOR_HEIGHT"
      else pure (draw_area_width, draw_area_height)
    let (draw_area_width, draw_area_height) ←
      event_history_pruned.reverse.foldlM
        (fun (acc : ℚ × ℚ) entry => do
          let text := EventType.names entry.event_type
          let text ←
            if entry.modifiers ≠ [] then do
              let mod_names ← sorted_modifier_keys entry.modifiers
              pure (String.intercalate " + " mod_names ++ " + " ++ text)
            else pure text
          let text :=
            if entry.repeat_count > 1 then
              text ++ " x" ++ toString entry.repeat_count
            else text
          pure (max acc.1 (dim text).1, acc.2 + sh))
        (draw_area_width, draw_area_height)
    let draw_area_height := draw_area_height + sh
    let x : ℚ := ot.x
    let y : ℚ := ot.y
    match prefs.origin with
    | .WINDOW =>
      pure (some ⟨x, y, x + draw_area_width, y + draw_area_height⟩)
    | .AREA =>
      match ot.area with
      | some area =>
        let xmin : ℚ := area.x
        let ymin : ℚ := area.y
        let xmax : ℚ := area.x + area.width - 1
        let ymax : ℚ := area.y + area.height - 1
        pure (some ⟨max x xmin, max y ymin, min (x + draw_area_width) xmax,
          min (y + draw_area_height) ymax⟩)
      | none => Except.error "AttributeError: NoneType object has no attribute x"
    | .REGION =>
      match ot.region with
      | some region =>
        let xmin : ℚ := region.x
        let ymin : ℚ := region.y
        let xmax : ℚ := region.x + region.width - 1
        let ymax : ℚ := region.y + region.height - 1
        pure (some ⟨max x xmin, max y ymin, min (x + draw_area_width) xmax,
          min (y + draw_area_height) ymax⟩)
      | none => Except.error "AttributeError: NoneType object has no attribute x"

/-- ops.py intersect_aabb specialized to the two dimensions it is called
with: the boxes are disjoint when some axis separates them. -/
def intersect_aabb (min1 max1 min2 max2 : ℚ × ℚ) : Bool :=
  if max1.1 < min2.1 ∨ max2.1 < min1.1 then false
  else if max1.2 < min2.2 ∨ max2.2 < min1.2 then false
  else true

/-- ops.py ScreencastKeysStatus.find_redraw_regions, with the result of its
calc_draw_area_rect call supplied as the rect parameter: empty for no rect,
empty when width and height are both zero, otherwise every (area, region)
pair with a non-empty region kind whose inclusive pixel rectangle intersects
the draw rectangle shrunk by one on the max corner. -/
def find_redraw_regions (rect : Option QRect) (areas : List Area) :
    List (Area × Region) :=
  match rect with
  | none => []
  | some r =>
    let width := r.xmax - r.xmin
    let height := r.ymax - r.ymin
    if width = height ∧ height = 0 then []
    else
      let draw_area_min := (r.xmin, r.ymin)
      let draw_area_max := (r.xmax - 1, r.ymax - 1)
      areas.flatMap (fun area =>
        (area.regions.filter (fun region =>
          if region.type = "" then false
          else
            intersect_aabb ((region.x : ℚ), (region.y : ℚ))
              (((region.x + region.width - 1 : Int) : ℚ),
               ((region.y + region.height - 1 : Int) : ℚ))
              draw_area_min draw_area_max)).map (fun region => (area, region)))

/-- The first redraw loop of modal (the stale-region cleanup): walk the live
regions of the current areas; every live region whose pointer is tracked gets
a tag_redraw request (recorded in the second component) and its pointer is
removed from the tracked set. -/
def redraw_prev_cleanup : List Region → Finset Nat × List Nat → Finset Nat × List Nat
  | [], st => st
  | r :: rest, (prev, calls) =>
    if r.ptr ∈ prev then redraw_prev_cleanup rest (prev.erase r.ptr, calls ++ [r.ptr])
    else redraw_prev_cleanup rest (prev, calls)

/-- Result of the redraw step: the tracked-region set for the next tick and
the sequence of tag_redraw requests issued. -/
structure RedrawResult where
  draw_regions_prev : Finset Nat
  tag_redraw_calls : List Nat
  deriving DecidableEq

/-- The redraw step of modal (ops.py modal, the redraw block), with the
regions list being what find_redraw_regions returned: first the stale-region
cleanup over the live regions, then a tag_redraw for every region of the
current set, whose pointers are added to the tracked set. -/
def modal_redraw_step (areas : List Area) (regions : List (Area × Region))
    (prev : Finset Nat) : RedrawResult :=
  let first := redraw_prev_cleanup (areas.flatMap (fun a => a.regions)) (prev, [])
  let second :=
    regions.foldl (fun st ar => (insert ar.2.ptr st.1, st.2 ++ [ar.2.ptr])) first
  ⟨second.1, second.2⟩

/-- The process-wide mutable state of ScreencastKeysStatus: the class-level
collections of ops.py.  Dictionaries (timers keyed by window pointer;
draw handlers keyed by space-kind and region-kind) are modelled as
association lists in insertion order; a token in the value position stands
for the host object the registration returned. -/
structure ModalState where
  running : Bool
  hold_modifier_keys : List EventType
  event_history : List EventEntry
  operator_history : List OpEntry
  draw_regions_prev : Finset Nat
  timers : List (Nat × Nat)
  handlers : List ((String × String) × Nat)
  origin : Origin

/-- The initial process-wide state (the class-body initializers; the
placeholder origin strings are modelled as zero pointers). -/
def initial_state : ModalState :=
  ⟨false, [], [], [], ∅, [], [], ⟨0, 0, 0, ""⟩⟩

/-- The context fields invoke reads: window-manager window pointers and the
current window, area, space and region of the invocation. -/
structure InvokeContext where
  windows : List Nat
  window_ptr : Nat
  area_ptr : Nat
  space_ptr : Nat
  region_type : String

/-- Host calls invoke makes, recorded as effects: the timer tokens passed to
wm.event_timer_remove, the draw-handler entries passed to
space.draw_handler_remove, and the returned operator status. -/
structure InvokeEffects where
  timers_removed : List Nat
  handlers_removed : List ((String × String) × Nat)
  status : String
  deriving DecidableEq

/-- ops.py ScreencastKeysStatus.event_timer_remove, as the tokens it hands to
wm.event_timer_remove: for each window-manager window whose pointer is a
timer key, the stored timer. -/
def event_timer_remove_tokens (windows : List Nat) (timers : List (Nat × Nat)) :
    List Nat :=
  windows.filterMap (fun w =>
    (timers.find? (fun kv => kv.1 = w)).map (fun kv => kv.2))

/-- ops.py ScreencastKeysStatus.event_timer_add: register a timer for every
window-manager window that has none yet (new_timer_token models the host
object wm.event_timer_add returns). -/
def event_timer_add (windows : List Nat) (new_timer_token : Nat → Nat)
    (timers : List (Nat × Nat)) : List (Nat × Nat) :=
  windows.foldl
    (fun ts w =>
      if (ts.find? (fun kv => kv.1 = w)).isSome then ts
      else ts ++ [(w, new_timer_token w)])
    timers

/-- ops.py ScreencastKeysStatus.invoke: while running, remove every timer
whose window still exists and every draw handler, clear both dictionaries,
clear both histories, the held modifiers and the tracked-region set, and
stop; while stopped, recompute the held modifiers from the invoking event,
register timers, snapshot the current window, area, space and region kind as
the origin, and start. -/
def invoke (ctx : InvokeContext) (event : InputEvent)
    (new_timer_token : Nat → Nat) (st : ModalState) :
    ModalState × InvokeEffects :=
  if st.running then
    (⟨false, [], [], [], ∅, [], [], st.origin⟩,
     ⟨event_timer_remove_tokens ctx.windows st.timers, st.handlers, "CANCELLED"⟩)
  else
    let hold := update_hold_modifier_keys event
    let timers := event_timer_add ctx.windows new_timer_token st.timers
    (⟨true, hold, st.event_history, st.operator_history, st.draw_regions_prev,
      timers, st.handlers,
      ⟨ctx.window_ptr, ctx.area_ptr, ctx.space_ptr, ctx.region_type⟩⟩,
     ⟨[], [], "RUNNING_MODAL"⟩)

/-- The event types update_hold_modifier_keys can ever record: the left
variants of shift, alt and ctrl, plus the OS key. -/
def hold_candidate_keys : List EventType :=
  [.LEFT_SHIFT, .OSKEY, .LEFT_ALT, .LEFT_CTRL]

/-! Concrete fixtures used by the closed theorems below. -/

/-- A plain key-press event with no modifier flags. -/
def sample_event : InputEvent := ⟨EventType.A, "PRESS", false, false, false, false⟩

/-- A key-press event arriving with shift and ctrl held. -/
def sample_event_mods : InputEvent := ⟨EventType.A, "PRESS", true, true, false, false⟩

/-- Preferences with the last-operator display enabled, WINDOW anchoring. -/
def sample_prefs_show_op : Prefs := ⟨3, true, true, .WINDOW, (10, 10)⟩

/-- Preferences with the last-operator display disabled, WINDOW anchoring. -/
def sample_prefs : Prefs := ⟨3, true, false, .WINDOW, (10, 10)⟩

/-- Preferences anchoring in AREA mode. -/
def sample_prefs_area : Prefs := ⟨3, true, false, .AREA, (10, 10)⟩

/-- An origin whose stored area and space pointers resolve to nothing. -/
def sample_origin : Origin := ⟨1, 2, 3, "WINDOW"⟩

/-- An area whose pointer and active space differ from sample_origin but
whose pointer sits in the area-to-spaces map. -/
def sample_area : Area := ⟨0, 0, 100, 100, "VIEW_3D", [], 20, 30, [30]⟩

/-- The window holding sample_area, with the pointer sample_origin names. -/
def sample_window : Window := ⟨1, [sample_area]⟩

/-- A region overlapping the vertical segment x = 0, y in [0, 4]. -/
def sample_region : Region := ⟨-1, 0, 2, 3, "WINDOW", 7⟩

/-- An area holding sample_region. -/
def sample_area_with_region : Area :=
  ⟨-1, 0, 2, 3, "VIEW_3D", [sample_region], 40, 50, [50]⟩

/-- An invoke context with one window. -/
def sample_ctx : InvokeContext := ⟨[1], 1, 20, 30, "WINDOW"⟩

/-- The state after toggling the operator on from the initial state. -/
def sample_state_running : ModalState :=
  (invoke sample_ctx sample_event id initial_state).1

/-! Helper lemmas. -/

/-- Membership from a getLast? hit. -/
theorem mem_of_getLast?_eq_some {α : Type} {l : List α} {a : α}
    (h : l.getLast? = some a) : a ∈ l := by
  obtain ⟨hne, heq⟩ := List.mem_getLast?_eq_getLast (l := l) (x := a) (by simp [h])
  rw [heq]
  exact List.getLast_mem hne

/-- Stable insertion produces a permutation. -/
theorem insertByKey_perm (k : EventType → Nat) (x : EventType) :
    ∀ l : List EventType, (insertByKey k x l).Perm (x :: l) := by
  intro l
  induction l with
  | nil => simp [insertByKey]
  | cons y ys ih =>
    by_cases h : k x ≤ k y
    · simp [insertByKey, h]
    · simp only [insertByKey, h, if_false]
      exact (ih.cons y).trans (List.Perm.swap x y ys)

/-- The stable sort produces a permutation of its input. -/
theorem sortedByKey_perm (k : EventType → Nat) :
    ∀ l : List EventType, (sortedByKey k l).Perm l := by
  intro l
  induction l with
  | nil => simp [sortedByKey]
  | cons x xs ih => exact (insertByKey_perm k x (sortedByKey k xs)).trans (ih.cons x)

/-- The sorted_modifier_keys loop raises the assertion whenever its input
still holds a non-modifier type. -/
theorem sorted_modifier_keys_loop_error :
    ∀ (l : List EventType) (acc : List String),
      (∃ t ∈ l, t ∉ MODIFIER_EVENT_TYPES) →
      ∃ msg, sorted_modifier_keys_loop l acc = Except.error msg := by
  intro l
  induction l with
  | nil => intro acc h; simp at h
  | cons m rest ih =>
    intro acc h
    by_cases hm : m ∈ MODIFIER_EVENT_TYPES
    · have h' : ∃ t ∈ rest, t ∉ MODIFIER_EVENT_TYPES := by
        obtain ⟨t, ht, hnt⟩ := h
        rcases List.mem_cons.mp ht with rfl | htr
        · exact absurd hm hnt
        · exact ⟨t, htr, hnt⟩
      by_cases hn : strip_side (EventType.names m) ∈ acc
      · simpa [sorted_modifier_keys_loop, hm, hn] using ih _ h'
      · simpa [sorted_modifier_keys_loop, hm, hn] using ih _ h'
    · exact ⟨EventType.names m ++ " must be modifier types",
        by simp [sorted_modifier_keys_loop, hm]⟩

/-- The sorted_modifier_keys loop succeeds whenever every input element is a
modifier type. -/
theorem sorted_modifier_keys_loop_ok :
    ∀ (l : List EventType) (acc : List String),
      (∀ t ∈ l, t ∈ MODIFIER_EVENT_TYPES) →
      ∃ names, sorted_modifier_keys_loop l acc = Except.ok names := by
  intro l
  induction l with
  | nil => intro acc _; exact ⟨acc, rfl⟩
  | cons m rest ih =>
    intro acc h
    have hm : m ∈ MODIFIER_EVENT_TYPES := h m (List.mem_cons_self m rest)
    have h' : ∀ t ∈ rest, t ∈ MODIFIER_EVENT_TYPES := fun t ht =>
      h t (List.mem_cons_of_mem m ht)
    by_cases hn : strip_side (EventType.names m) ∈ acc
    · simpa [sorted_modifier_keys_loop, hm, hn] using ih _ h'
    · simpa [sorted_modifier_keys_loop, hm, hn] using ih _ h'

/-- sorted_modifier_keys succeeds on lists of modifier types. -/
theorem sorted_modifier_keys_ok (l : List EventType)
    (h : ∀ t ∈ l, t ∈ MODIFIER_EVENT_TYPES) :
    ∃ names, sorted_modifier_keys l = Except.ok names :=
  sorted_modifier_keys_loop_ok _ [] (fun t ht =>
    h t ((sortedByKey_perm modifier_sort_key l).mem_iff.mp ht))

/-- Reduction of a bind on a successful Except value (the do-notation of the
embedded functions). -/
theorem except_ok_bind {ε α β : Type} (a : α) (f : α → Except ε β) :
    (do let x ← (Except.ok a : Except ε α); f x) = f a := rfl

/-! Claim theorems. -/

/-- C5: pruning the event history with display duration d at time t keeps
exactly the entries with t - timestamp not exceeding d (so it removes
exactly those with t - timestamp strictly greater than d), preserves order
(the result is a sublist of the input), and is idempotent at the same t. -/
theorem C5_prune_exact_ordered_idempotent :
    ∀ (hist : List EventEntry) (t d : ℚ),
      (∀ e : EventEntry, e ∈ removed_old_event_history d t hist ↔
        e ∈ hist ∧ ¬(t - e.time > d)) ∧
      (removed_old_event_history d t hist).Sublist hist ∧
      removed_old_event_history d t (removed_old_event_history d t hist) =
        removed_old_event_history d t hist := by
  intro hist t d
  refine ⟨?_, List.filter_sublist hist, ?_⟩
  · intro e
    simp [removed_old_event_history, List.mem_filter, not_lt]
  · simp only [removed_old_event_history, List.filter_filter]
    exact List.filter_congr (fun e _ => by simp)

/-- C9 counterexample: on an input holding the non-modifier type A,
sorted_modifier_keys does not return normally; it fails the per-element
assertion. -/
theorem C9_counterexample :
    sorted_modifier_keys [EventType.A] =
      Except.error "A must be modifier types" := rfl

/-- C9 (amended): for every input list holding at least one event type
outside the modifier set, sorted_modifier_keys raises the programming-error
assertion instead of returning; unknown entries are ordered last by the sort
key but the per-element assertion fires before any output is produced. -/
theorem C9_assert_on_unknown (l : List EventType)
    (h : ∃ t ∈ l, t ∉ MODIFIER_EVENT_TYPES) :
    ∃ msg, sorted_modifier_keys l = Except.error msg := by
  apply sorted_modifier_keys_loop_error
  obtain ⟨t, ht, hnt⟩ := h
  exact ⟨t, (sortedByKey_perm modifier_sort_key l).mem_iff.mpr ht, hnt⟩

/-- C9 witness: the hypothesis is satisfiable (type A is not a modifier). -/
theorem C9_assert_on_unknown_witness :
    ∃ msg, sorted_modifier_keys [EventType.A] = Except.error msg :=
  C9_assert_on_unknown [EventType.A] (by decide)

/-- C2 counterexample: the string FOO is not a member of the event-type
enumeration, yet the modal guard raises KeyError on it instead of passing
it through. -/
theorem C2_counterexample :
    EventType.ofString "FOO" = none ∧
    modal_event_type_of "FOO" = Except.error ("KeyError: " ++ "FOO") :=
  ⟨rfl, rfl⟩

/-- C2 (amended): only the empty type string (the unrecognized marker the
code anticipates) is tolerated and passed through unclassified; every other
string that is not a member of the enumeration raises KeyError at the
EventType lookup. -/
theorem C2_only_empty_unrecognized_tolerated (s : String)
    (h1 : EventType.ofString s = none) (h2 : s ≠ "") :
    modal_event_type_of "" = Except.ok none ∧
    modal_event_type_of s = Except.error ("KeyError: " ++ s) := by
  refine ⟨rfl, ?_⟩
  simp [modal_event_type_of, h2, h1]

/-- C2 witness: the hypotheses are satisfiable at the string FOO. -/
theorem C2_only_empty_unrecognized_tolerated_witness :
    modal_event_type_of "" = Except.ok none ∧
    modal_event_type_of "FOO" = Except.error ("KeyError: " ++ "FOO") :=
  C2_only_empty_unrecognized_tolerated "FOO" rfl (by decide)

/-- C1: the Draw-Area Calculator raises AttributeError in exactly the
steady-state situations the claim names, because the class body defines
HEIGHT_RATIO_FOR_SEPARATOR while the method reads cls.SEPARATOR_HEIGHT.
With a resolving WINDOW origin: enabling show-last-command raises, a
non-empty held-modifier set raises, a non-empty pruned event history raises,
while the overlay with all three absent returns a rectangle. -/
theorem C1_calc_draw_area_rect_attribute_error :
    calc_draw_area_rect sample_prefs_show_op sample_origin [] false
      [sample_window] (fun _ => (0, 1)) id [] [] [] 0 =
      Except.error "AttributeError: SEPARATOR_HEIGHT" ∧
    calc_draw_area_rect sample_prefs sample_origin [] false [sample_window]
      (fun _ => (0, 1)) id [EventType.LEFT_SHIFT] [] [] 0 =
      Except.error "AttributeError: SEPARATOR_HEIGHT" ∧
    calc_draw_area_rect sample_prefs sample_origin [] false [sample_window]
      (fun _ => (0, 1)) id [] [⟨0, EventType.A, [], 1⟩] [] 0 =
      Except.error "AttributeError: SEPARATOR_HEIGHT" ∧
    calc_draw_area_rect sample_prefs sample_origin [] false [sample_window]
      (fun _ => (0, 1)) id [] [] [] 0 =
      Except.ok (some ⟨10, 10, 10, 11⟩) := by
  refine ⟨rfl, rfl, ?_, ?_⟩
  · norm_num [calc_draw_area_rect, get_origin, sample_prefs, sample_origin,
      sample_window, removed_old_event_history, class_attr,
      screencast_keys_class_attrs]
    rfl
  · norm_num [calc_draw_area_rect, get_origin, sample_prefs, sample_origin,
      sample_window, removed_old_event_history, removed_old_operator_history,
      except_ok_bind, pure, Except.pure, QRect.mk.injEq]

/-- C3: in AREA mode, when an area matches neither by pointer nor by active
space and matching falls through to the membership test in the
historically-observed space map, get_origin raises AttributeError (the
source reads .spaces off the integer pointer) instead of returning the
no-target tuple; with the membership test not reached (pointer absent from
the map) the same state resolves gracefully to no target. -/
theorem C3_get_origin_attribute_error :
    get_origin sample_prefs_area sample_origin [20] false [sample_window] =
      Except.error "AttributeError: int object has no attribute spaces" ∧
    get_origin sample_prefs_area sample_origin [] false [sample_window] =
      Except.ok ⟨none, none, none, 0, 0⟩ :=
  ⟨rfl, rfl⟩

/-- C6 counterexample: a draw rectangle of zero width (hence zero area) but
positive height is not filtered out by the zero-size test (which requires
width and height to both be zero), and an overlapping region is collected. -/
theorem C6_counterexample :
    (((0 : ℚ) - 0) * (5 - 0) = 0) ∧
    find_redraw_regions (some ⟨0, 0, 0, 5⟩) [sample_area_with_region] =
      [(sample_area_with_region, sample_region)] := by
  refine ⟨by norm_num, ?_⟩
  norm_num [find_redraw_regions, intersect_aabb, sample_area_with_region,
    sample_region, List.filter_cons, List.flatMap_cons]
  rfl

/-- C6 (amended): find_redraw_regions returns the empty list when the draw
rectangle is none or has zero width and zero height (not merely zero area);
otherwise it returns exactly the (area, region) pairs, over regions with a
non-empty kind, whose inclusive rectangle AABB-intersects the draw rectangle
shrunk by one unit on the max corner. -/
theorem C6_find_redraw_regions_spec :
    (∀ areas, find_redraw_regions none areas = []) ∧
    (∀ (r : QRect) areas, r.xmax - r.xmin = 0 → r.ymax - r.ymin = 0 →
      find_redraw_regions (some r) areas = []) ∧
    (∀ (r : QRect) areas (a : Area) (reg : Region),
      ¬(r.xmax - r.xmin = r.ymax - r.ymin ∧ r.ymax - r.ymin = 0) →
      ((a, reg) ∈ find_redraw_regions (some r) areas ↔
        a ∈ areas ∧ reg ∈ a.regions ∧ reg.type ≠ "" ∧
        intersect_aabb ((reg.x : ℚ), (reg.y : ℚ))
          (((reg.x + reg.width - 1 : Int) : ℚ),
           ((reg.y + reg.height - 1 : Int) : ℚ))
          (r.xmin, r.ymin) (r.xmax - 1, r.ymax - 1) = true)) := by
  refine ⟨fun areas => rfl, ?_, ?_⟩
  · intro r areas hw hh
    simp [find_redraw_regions, hw, hh]
  · intro r areas a reg hcond
    simp only [find_redraw_regions, if_neg hcond, List.mem_flatMap,
      List.mem_map, List.mem_filter]
    constructor
    · rintro ⟨a', ha', reg', ⟨hreg', hpred⟩, heq⟩
      injection heq with h1 h2
      subst h1
      subst h2
      by_cases hty : reg'.type = ""
      · rw [if_pos hty] at hpred
        exact absurd hpred (by simp)
      · rw [if_neg hty] at hpred
        exact ⟨ha', hreg', hty, hpred⟩
    · rintro ⟨ha, hreg, hty, hint⟩
      refine ⟨a, ha, reg, ⟨hreg, ?_⟩, rfl⟩
      rw [if_neg hty]
      exact hint

/-- C6 witness: the empty-rectangle branch at a concrete input. -/
theorem C6_find_redraw_regions_spec_witness :
    find_redraw_regions (some ⟨0, 0, 0, 0⟩) [sample_area_with_region] = [] :=
  C6_find_redraw_regions_spec.2.1 ⟨0, 0, 0, 0⟩ [sample_area_with_region]
    (by simp) (by simp)

/-- The stale-region cleanup only ever shrinks the tracked set. -/
theorem redraw_prev_cleanup_fst_subset :
    ∀ (l : List Region) (prev : Finset Nat) (calls : List Nat),
      (redraw_prev_cleanup l (prev, calls)).1 ⊆ prev := by
  intro l
  induction l with
  | nil => intro prev calls x hx; exact hx
  | cons r rest ih =>
    intro prev calls
    by_cases h : r.ptr ∈ prev
    · simp only [redraw_prev_cleanup, if_pos h]
      exact fun x hx => Finset.erase_subset _ _ (ih _ _ hx)
    · simp only [redraw_prev_cleanup, if_neg h]
      exact ih _ _

/-- The stale-region cleanup only ever appends repaint requests. -/
theorem redraw_prev_cleanup_calls_mono :
    ∀ (l : List Region) (prev : Finset Nat) (calls : List Nat) (p : Nat),
      p ∈ calls → p ∈ (redraw_prev_cleanup l (prev, calls)).2 := by
  intro l
  induction l with
  | nil => intro prev calls p hp; exact hp
  | cons r rest ih =>
    intro prev calls p hp
    by_cases h : r.ptr ∈ prev
    · simp only [redraw_prev_cleanup, if_pos h]
      exact ih _ _ _ (List.mem_append_left _ hp)
    · simp only [redraw_prev_cleanup, if_neg h]
      exact ih _ _ _ hp

/-- A tracked pointer that belongs to some live region is removed from the
tracked set by the cleanup loop and gets a repaint request. -/
theorem redraw_prev_cleanup_removes :
    ∀ (l : List Region) (prev : Finset Nat) (calls : List Nat) (p : Nat),
      p ∈ prev → p ∈ l.map Region.ptr →
      p ∉ (redraw_prev_cleanup l (prev, calls)).1 ∧
      p ∈ (redraw_prev_cleanup l (prev, calls)).2 := by
  intro l
  induction l with
  | nil => intro prev calls p _ hl; simp at hl
  | cons r rest ih =>
    intro prev calls p hp hl
    rw [List.map_cons] at hl
    rcases List.mem_cons.mp hl with rfl | htl
    · have h : r.ptr ∈ prev := hp
      simp only [redraw_prev_cleanup, if_pos h]
      refine ⟨fun hmem => ?_, ?_⟩
      · exact (Finset.not_mem_erase r.ptr prev)
          (redraw_prev_cleanup_fst_subset rest _ _ hmem)
      · exact redraw_prev_cleanup_calls_mono rest _ _ r.ptr
          (List.mem_append_right _ (List.mem_singleton_self r.ptr))
    · by_cases h : r.ptr ∈ prev
      · simp only [redraw_prev_cleanup, if_pos h]
        by_cases hpr : p = r.ptr
        · subst hpr
          refine ⟨fun hmem => ?_, ?_⟩
          · exact (Finset.not_mem_erase r.ptr prev)
              (redraw_prev_cleanup_fst_subset rest _ _ hmem)
          · exact redraw_prev_cleanup_calls_mono rest _ _ r.ptr
              (List.mem_append_right _ (List.mem_singleton_self r.ptr))
        · exact ih (prev.erase r.ptr) (calls ++ [r.ptr]) p
            (Finset.mem_erase.mpr ⟨hpr, hp⟩) htl
      · simp only [redraw_prev_cleanup, if_neg h]
        exact ih prev calls p hp htl

/-- The second redraw loop leaves a pointer outside the current redraw set
untouched in the tracked set and only appends repaint requests. -/
theorem redraw_apply_not_mem :
    ∀ (pairs : List (Area × Region)) (st : Finset Nat × List Nat) (p : Nat),
      p ∉ pairs.map (fun ar => ar.2.ptr) →
      ((p ∈ (pairs.foldl
          (fun st ar => (insert ar.2.ptr st.1, st.2 ++ [ar.2.ptr])) st).1 ↔
        p ∈ st.1) ∧
       (p ∈ st.2 → p ∈ (pairs.foldl
          (fun st ar => (insert ar.2.ptr st.1, st.2 ++ [ar.2.ptr])) st).2)) := by
  intro pairs
  induction pairs with
  | nil => intro st p _; exact ⟨Iff.rfl, fun h => h⟩
  | cons q rest ih =>
    intro st p hp
    have hne : p ≠ q.2.ptr := by
      intro h
      exact hp (by simp [h])
    have hrest : p ∉ rest.map (fun ar => ar.2.ptr) := by
      intro h
      exact hp (by simp [h])
    simp only [List.foldl_cons]
    have h := ih (insert q.2.ptr st.1, st.2 ++ [q.2.ptr]) p hrest
    refine ⟨?_, ?_⟩
    · rw [h.1]
      simp [Finset.mem_insert, hne]
    · intro hmem
      exact h.2 (List.mem_append_left _ hmem)

/-- C7 counterexample: a tracked region handle whose region no longer exists
in any screen area is neither removed from the tracked set nor repainted by
the redraw step. -/
theorem C7_counterexample :
    5 ∈ (modal_redraw_step [] [] {5}).draw_regions_prev ∧
    (modal_redraw_step [] [] {5}).tag_redraw_calls = [] := by
  constructor
  · decide
  · rfl

/-- C7 (amended): for every region still present in some screen area whose
handle is tracked from the previous tick but which is outside the current
redraw-region set, the redraw step removes the handle from the tracked set
and issues a repaint request for it; a handle whose region vanished from
the area tree is not visited by the cleanup loop. -/
theorem C7_stale_live_region_cleared (areas : List Area)
    (regions : List (Area × Region)) (prev : Finset Nat) (r : Region)
    (hlive : r ∈ areas.flatMap (fun a => a.regions))
    (hprev : r.ptr ∈ prev)
    (hnotcur : r.ptr ∉ regions.map (fun ar => ar.2.ptr)) :
    r.ptr ∉ (modal_redraw_step areas regions prev).draw_regions_prev ∧
    r.ptr ∈ (modal_redraw_step areas regions prev).tag_redraw_calls := by
  have hmap : r.ptr ∈ (areas.flatMap (fun a => a.regions)).map Region.ptr :=
    List.mem_map_of_mem Region.ptr hlive
  have h1 := redraw_prev_cleanup_removes (areas.flatMap (fun a => a.regions))
    prev [] r.ptr hprev hmap
  have h2 := redraw_apply_not_mem regions
    (redraw_prev_cleanup (areas.flatMap (fun a => a.regions)) (prev, []))
    r.ptr hnotcur
  unfold modal_redraw_step
  exact ⟨fun hmem => h1.1 (h2.1.mp hmem), h2.2 h1.2⟩

/-- C7 witness: the amended statement at a concrete live region. -/
theorem C7_stale_live_region_cleared_witness :
    7 ∉ (modal_redraw_step [sample_area_with_region] [] {7}).draw_regions_prev ∧
    7 ∈ (modal_redraw_step [sample_area_with_region] [] {7}).tag_redraw_calls :=
  C7_stale_live_region_cleared [sample_area_with_region] [] {7} sample_region
    (by decide) (by decide) (by decide)

/-- A modal dispatch that appends to an empty event history. -/
theorem modal_update_first (prefs : Prefs) (e : InputEvent) (t : ℚ)
    (hig : is_ignore_event e prefs = false) (hmod : is_modifier_event e = false)
    (hval : e.value = "PRESS") (hd : 0 ≤ prefs.display_time) :
    modal_update_event_history prefs t e [] =
      [⟨t, e.type, current_modifiers e, 1⟩] := by
  unfold modal_update_event_history
  rw [if_pos ⟨hig, hmod, hval⟩]
  simp [removed_old_event_history, hd]

/-- A modal dispatch that merges into a single matching history entry when it
arrives strictly within the display duration. -/
theorem modal_update_merge (prefs : Prefs) (e : InputEvent) (t t0 : ℚ) (k : Nat)
    (hig : is_ignore_event e prefs = false) (hmod : is_modifier_event e = false)
    (hval : e.value = "PRESS") (hd : 0 ≤ prefs.display_time)
    (hlt : t - t0 < prefs.display_time) :
    modal_update_event_history prefs t e [⟨t0, e.type, current_modifiers e, k⟩] =
      [⟨t, e.type, current_modifiers e, k + 1⟩] := by
  unfold modal_update_event_history
  rw [if_pos ⟨hig, hmod, hval⟩]
  simp [removed_old_event_history, hlt, hd]

/-- Folding further identical presses over a one-entry history keeps a single
entry, bumping the count and refreshing the timestamp. -/
theorem modal_update_fold (prefs : Prefs) (e : InputEvent)
    (hig : is_ignore_event e prefs = false) (hmod : is_modifier_event e = false)
    (hval : e.value = "PRESS") (hd : 0 ≤ prefs.display_time) :
    ∀ (ts : List ℚ) (t0 : ℚ) (k : Nat),
      List.Chain' (fun a b => b - a < prefs.display_time) (t0 :: ts) →
      ts.foldl (fun h t => modal_update_event_history prefs t e h)
          [⟨t0, e.type, current_modifiers e, k⟩] =
        [⟨(t0 :: ts).getLast (List.cons_ne_nil t0 ts), e.type,
          current_modifiers e, k + ts.length⟩] := by
  intro ts
  induction ts with
  | nil => intro t0 k _; simp
  | cons t1 rest ih =>
    intro t0 k hch
    obtain ⟨hlt, hch'⟩ := List.chain'_cons.mp hch
    rw [List.foldl_cons,
      modal_update_merge prefs e t1 t0 k hig hmod hval hd hlt, ih t1 (k + 1) hch']
    have hn : k + 1 + rest.length = k + (t1 :: rest).length := by
      simp only [List.length_cons]
      omega
    rw [hn]
    rfl

/-- C4: a run of identical presses (same type, same modifier snapshot), each
arriving strictly within the display duration of the previous one and
dispatched onto an empty history, leaves exactly one history entry whose
repeat count is the length of the run and whose timestamp is the last
arrival time. -/
theorem C4_press_run_coalesces (prefs : Prefs) (e : InputEvent) (ts : List ℚ)
    (hne : ts ≠ [])
    (hch : List.Chain' (fun a b => b - a < prefs.display_time) ts)
    (hd : 0 ≤ prefs.display_time)
    (hig : is_ignore_event e prefs = false)
    (hmod : is_modifier_event e = false)
    (hval : e.value = "PRESS") :
    ts.foldl (fun h t => modal_update_event_history prefs t e h) [] =
      [⟨ts.getLast hne, e.type, current_modifiers e, ts.length⟩] := by
  match ts, hne with
  | t1 :: rest, _ =>
    rw [List.foldl_cons, modal_update_first prefs e t1 hig hmod hval hd,
      modal_update_fold prefs e hig hmod hval hd rest t1 1 hch]
    have hn : 1 + rest.length = (t1 :: rest).length := by
      simp only [List.length_cons]
      omega
    rw [hn]

/-- C4 witness: two presses of the key A at times 0 and 1 with a display
duration of 3 coalesce into one entry with repeat count 2 and timestamp 1. -/
theorem C4_press_run_coalesces_witness :
    ([0, 1] : List ℚ).foldl
        (fun h t => modal_update_event_history sample_prefs t sample_event h)
        [] =
      [⟨1, EventType.A, [], 2⟩] :=
  C4_press_run_coalesces sample_prefs sample_event [0, 1] (by simp)
    (List.chain'_cons.mpr ⟨by norm_num [sample_prefs], List.chain'_singleton 1⟩)
    (by norm_num [sample_prefs]) (by decide) (by decide) (by decide)

/-- The recomputed held-modifier list only holds the four candidate keys and
is duplicate-free. -/
theorem update_hold_modifier_keys_sub_nodup (e : InputEvent) :
    (∀ x ∈ update_hold_modifier_keys e, x ∈ hold_candidate_keys) ∧
    (update_hold_modifier_keys e).Nodup := by
  rcases e with ⟨ty, v, s, c, a, o⟩
  unfold update_hold_modifier_keys
  dsimp only
  split
  · simp
  · cases s <;> cases c <;> cases a <;> cases o <;> decide

/-- The modifier snapshot only holds candidate keys, is duplicate-free, and
excludes the event type itself. -/
theorem current_modifiers_good (e : InputEvent) :
    (∀ x ∈ current_modifiers e, x ∈ hold_candidate_keys) ∧
    (current_modifiers e).Nodup ∧ e.type ∉ current_modifiers e := by
  obtain ⟨hsub, hnd⟩ := update_hold_modifier_keys_sub_nodup e
  have hsl := List.erase_sublist e.type (update_hold_modifier_keys e)
  exact ⟨fun x hx => hsub x (hsl.subset hx), hsl.nodup hnd, hnd.not_mem_erase⟩

/-- The modifiers of any entry of an updated history are either the fresh
snapshot or the modifiers of some pre-existing entry. -/
theorem modal_update_modifiers_cases (prefs : Prefs) (t : ℚ) (e : InputEvent)
    (hist : List EventEntry) (en : EventEntry)
    (hen : en ∈ modal_update_event_history prefs t e hist) :
    en.modifiers = current_modifiers e ∨
    ∃ en' ∈ hist, en.modifiers = en'.modifiers := by
  unfold modal_update_event_history removed_old_event_history at hen
  simp only [List.mem_filter] at hen
  obtain ⟨hen', -⟩ := hen
  by_cases hg : is_ignore_event e prefs = false ∧ is_modifier_event e = false ∧
      e.value = "PRESS"
  · rw [if_pos hg] at hen'
    split at hen'
    next last hlast =>
      split at hen'
      next hm =>
        rcases List.mem_append.mp hen' with h | h
        · exact Or.inr ⟨en, (List.dropLast_sublist hist).subset h, rfl⟩
        · refine Or.inr ⟨last, mem_of_getLast?_eq_some hlast, ?_⟩
          rw [List.mem_singleton.mp h]
      next hm =>
        rcases List.mem_append.mp hen' with h | h
        · exact Or.inr ⟨en, h, rfl⟩
        · rw [List.mem_singleton.mp h]
          exact Or.inl rfl
    next hlast =>
      rcases List.mem_append.mp hen' with h | h
      · exact Or.inr ⟨en, h, rfl⟩
      · rw [List.mem_singleton.mp h]
        exact Or.inl rfl
  · rw [if_neg hg] at hen'
    exact Or.inr ⟨en, hen', rfl⟩

/-- C10: the modifier snapshot stored by a modal dispatch holds only the four
candidate modifier keys (left shift, OS key, left alt, left ctrl), is
duplicate-free and excludes the event type itself; consequently, on any
history whose entries already satisfy this invariant, every entry after the
dispatch still satisfies it and sorted_modifier_keys succeeds on it. -/
theorem C10_modifier_snapshot_invariant (e : InputEvent) (prefs : Prefs)
    (t : ℚ) (hist : List EventEntry)
    (hhist : ∀ en ∈ hist, (∀ x ∈ en.modifiers, x ∈ hold_candidate_keys) ∧
      en.modifiers.Nodup) :
    (∀ x ∈ current_modifiers e, x ∈ hold_candidate_keys) ∧
    (current_modifiers e).Nodup ∧
    e.type ∉ current_modifiers e ∧
    (∀ en ∈ modal_update_event_history prefs t e hist,
      (∀ x ∈ en.modifiers, x ∈ hold_candidate_keys) ∧ en.modifiers.Nodup ∧
      ∃ names, sorted_modifier_keys en.modifiers = Except.ok names) := by
  obtain ⟨h1, h2, h3⟩ := current_modifiers_good e
  refine ⟨h1, h2, h3, ?_⟩
  intro en hen
  have hgood : (∀ x ∈ en.modifiers, x ∈ hold_candidate_keys) ∧
      en.modifiers.Nodup := by
    rcases modal_update_modifiers_cases prefs t e hist en hen with heq | ⟨en', hmem, heq⟩
    · rw [heq]
      exact ⟨h1, h2⟩
    · rw [heq]
      exact hhist en' hmem
  have hcand : ∀ x ∈ hold_candidate_keys, x ∈ MODIFIER_EVENT_TYPES := by decide
  exact ⟨hgood.1, hgood.2,
    sorted_modifier_keys_ok en.modifiers (fun x hx => hcand x (hgood.1 x hx))⟩

/-- C10 witness: a press of A with shift and ctrl held, dispatched onto the
empty history. -/
theorem C10_modifier_snapshot_invariant_witness :
    (∀ x ∈ current_modifiers sample_event_mods, x ∈ hold_candidate_keys) ∧
    (current_modifiers sample_event_mods).Nodup ∧
    sample_event_mods.type ∉ current_modifiers sample_event_mods ∧
    (∀ en ∈ modal_update_event_history sample_prefs 0 sample_event_mods [],
      (∀ x ∈ en.modifiers, x ∈ hold_candidate_keys) ∧ en.modifiers.Nodup ∧
      ∃ names, sorted_modifier_keys en.modifiers = Except.ok names) :=
  C10_modifier_snapshot_invariant sample_event_mods sample_prefs 0 []
    (by simp)

/-- Unfolding one window of the timer-registration fold. -/
theorem event_timer_add_cons (w : Nat) (ws : List Nat) (tok : Nat → Nat)
    (ts : List (Nat × Nat)) :
    event_timer_add (w :: ws) tok ts =
      event_timer_add ws tok
        (if (ts.find? (fun kv => kv.1 = w)).isSome then ts
         else ts ++ [(w, tok w)]) := rfl

/-- Every entry of the timer registry after registration was either already
present or is keyed by a window-manager window. -/
theorem event_timer_add_mem (tok : Nat → Nat) :
    ∀ (ws : List Nat) (ts : List (Nat × Nat)) (kv : Nat × Nat),
      kv ∈ event_timer_add ws tok ts → kv ∈ ts ∨ kv.1 ∈ ws := by
  intro ws
  induction ws with
  | nil => intro ts kv h; exact Or.inl h
  | cons w ws' ih =>
    intro ts kv h
    rw [event_timer_add_cons] at h
    rcases ih _ kv h with h' | h'
    · by_cases hc : (ts.find? (fun kv => kv.1 = w)).isSome
      · rw [if_pos hc] at h'
        exact Or.inl h'
      · rw [if_neg hc] at h'
        rcases List.mem_append.mp h' with h2 | h2
        · exact Or.inl h2
        · rw [List.mem_singleton.mp h2]
          exact Or.inr (List.mem_cons_self w ws')
    · exact Or.inr (List.mem_cons_of_mem w h')

/-- Timer registration keeps the registry keys duplicate-free. -/
theorem event_timer_add_keys_nodup (tok : Nat → Nat) :
    ∀ (ws : List Nat) (ts : List (Nat × Nat)),
      (ts.map Prod.fst).Nodup →
      ((event_timer_add ws tok ts).map Prod.fst).Nodup := by
  intro ws
  induction ws with
  | nil => intro ts h; exact h
  | cons w ws' ih =>
    intro ts h
    rw [event_timer_add_cons]
    apply ih
    by_cases hc : (ts.find? (fun kv => kv.1 = w)).isSome
    · rw [if_pos hc]
      exact h
    · rw [if_neg hc]
      have hw : w ∉ ts.map Prod.fst := by
        intro hmem
        apply hc
        rw [List.find?_isSome]
        obtain ⟨kv, hkv, hfst⟩ := List.mem_map.mp hmem
        exact ⟨kv, hkv, by simp [hfst]⟩
      simp [List.map_append, List.nodup_append, h, hw]

/-- On a registry with duplicate-free keys, the lookup by the key of a stored
entry returns that entry. -/
theorem find?_eq_of_mem_keys_nodup :
    ∀ (ts : List (Nat × Nat)) (kv : Nat × Nat),
      kv ∈ ts → (ts.map Prod.fst).Nodup →
      ts.find? (fun x => x.1 = kv.1) = some kv := by
  intro ts
  induction ts with
  | nil => intro kv h _; simp at h
  | cons x rest ih =>
    intro kv hmem hnd
    rw [List.map_cons, List.nodup_cons] at hnd
    rcases List.mem_cons.mp hmem with rfl | hrest
    · simp [List.find?]
    · have hne : ¬(x.1 = kv.1) := by
        intro he
        exact hnd.1 (he ▸ List.mem_map_of_mem Prod.fst hrest)
      rw [List.find?_cons_of_neg _ (by simp [hne])]
      exact ih kv hrest hnd.2

/-- Every registry entry keyed by a live window-manager window has its token
passed to wm.event_timer_remove by the teardown. -/
theorem event_timer_remove_tokens_complete (ws : List Nat)
    (ts : List (Nat × Nat)) (kv : Nat × Nat) (hmem : kv ∈ ts)
    (hnd : (ts.map Prod.fst).Nodup) (hw : kv.1 ∈ ws) :
    kv.2 ∈ event_timer_remove_tokens ws ts := by
  unfold event_timer_remove_tokens
  rw [List.mem_filterMap]
  exact ⟨kv.1, hw, by rw [find?_eq_of_mem_keys_nodup ts kv hmem hnd]; rfl⟩

/-- C8: toggling the operator on from the initial state and later off (from
any running state whose timer registry is the one the activation built)
returns the held-modifier list, both histories, the tracked-region set, the
timer registry and the draw-handler registry to empty, and unregisters every
registered timer token and every registered draw handler. -/
theorem C8_toggle_round_trip (ctx : InvokeContext) (e1 e2 : InputEvent)
    (tok : Nat → Nat) (st2 : ModalState)
    (hrun : st2.running = true)
    (htimers : st2.timers = ((invoke ctx e1 tok initial_state).1).timers) :
    ((invoke ctx e2 tok st2).1.running = false) ∧
    ((invoke ctx e2 tok st2).1.hold_modifier_keys = []) ∧
    ((invoke ctx e2 tok st2).1.event_history = []) ∧
    ((invoke ctx e2 tok st2).1.operator_history = []) ∧
    ((invoke ctx e2 tok st2).1.draw_regions_prev = ∅) ∧
    ((invoke ctx e2 tok st2).1.timers = []) ∧
    ((invoke ctx e2 tok st2).1.handlers = []) ∧
    (∀ kv ∈ st2.timers, kv.2 ∈ (invoke ctx e2 tok st2).2.timers_removed) ∧
    ((invoke ctx e2 tok st2).2.handlers_removed = st2.handlers) := by
  have hinv : invoke ctx e2 tok st2 =
      (⟨false, [], [], [], ∅, [], [], st2.origin⟩,
       ⟨event_timer_remove_tokens ctx.windows st2.timers, st2.handlers,
        "CANCELLED"⟩) := by
    unfold invoke
    rw [if_pos hrun]
  rw [hinv]
  refine ⟨rfl, rfl, rfl, rfl, rfl, rfl, rfl, ?_, rfl⟩
  intro kv hkv
  have h1 : st2.timers = event_timer_add ctx.windows tok [] := by
    rw [htimers]
    rfl
  have hker : kv.1 ∈ ctx.windows := by
    rcases event_timer_add_mem tok ctx.windows [] kv (h1 ▸ hkv) with h | h
    · simp at h
    · exact h
  have hnd : (st2.timers.map Prod.fst).Nodup := by
    rw [h1]
    exact event_timer_add_keys_nodup tok ctx.windows [] (by simp)
  exact event_timer_remove_tokens_complete ctx.windows st2.timers kv hkv hnd hker

/-- C8 witness: one window, toggling on from the initial state and then off
from the state the activation produced. -/
theorem C8_toggle_round_trip_witness :
    ((invoke sample_ctx sample_event id sample_state_running).1.running = false) ∧
    ((invoke sample_ctx sample_event id sample_state_running).1.hold_modifier_keys = []) ∧
    ((invoke sample_ctx sample_event id sample_state_running).1.event_history = []) ∧
    ((invoke sample_ctx sample_event id sample_state_running).1.operator_history = []) ∧
    ((invoke sample_ctx sample_event id sample_state_running).1.draw_regions_prev = ∅) ∧
    ((invoke sample_ctx sample_event id sample_state_running).1.timers = []) ∧
    ((invoke sample_ctx sample_event id sample_state_running).1.handlers = []) ∧
    (∀ kv ∈ sample_state_running.timers,
      kv.2 ∈ (invoke sample_ctx sample_event id sample_state_running).2.timers_removed) ∧
    ((invoke sample_ctx sample_event id sample_state_running).2.handlers_removed =
      sample_state_running.handlers) :=
  C8_toggle_round_trip sample_ctx sample_event sample_event id
    sample_state_running rfl rfl

end ScreencastKeys
